import Mathlib

/-!
Verification of the index-db object engine adapter
(`objectserver/indexdbobjeng.go`): a shallow embedding of the
device registry (`indexDBEngine`) and the per-request object handle
(`indexDBObject`), together with proofs about the addressing,
load, commit and writer-lifecycle behaviour.

External collaborators (the index database, the JSON encoder, the
date parser, the metadata-hash function, the object-hash function and
the clock) are modelled as parameters: the index database as a record
of functions (`IndexDB`), everything else in an environment record
(`Env`). All embedded operations are pure state transformers on the
handle; side effects on the outside world (abandoning an atomic file
writer, the single forwarded index-database commit call) are returned
explicitly so theorems can speak about them.
-/

/-- Go `map[string]string`, modelled as an association list (first
binding wins, like a map lookup). Used both for metadata maps and for
the `vars` argument of `New`. -/
abbrev MetaMap := List (String × String)

/-- Association-list lookup, generic over the value type. -/
def assocFind? {α : Type} (m : List (String × α)) (k : String) : Option α :=
  (m.find? (fun p => p.1 == k)).map Prod.snd

/-- Go map indexing `m[k]` on a `map[string]string`: the zero value
`""` when the key is absent. -/
def metaGet (m : MetaMap) (k : String) : String :=
  (assocFind? m k).getD ""

/-- Value of one hexadecimal digit character, `none` when the
character is not a hex digit (Go `encoding/hex` accepts both cases). -/
def hexDigitVal (c : Char) : Option Nat :=
  if '0' ≤ c ∧ c ≤ '9' then some (c.toNat - '0'.toNat)
  else if 'a' ≤ c ∧ c ≤ 'f' then some (c.toNat - 'a'.toNat + 10)
  else if 'A' ≤ c ∧ c ≤ 'F' then some (c.toNat - 'A'.toNat + 10)
  else none

/-- Go `hex.DecodeString` on a character list: consume the characters
two at a time into bytes; fail on a non-hex character or an odd
length. -/
def hexDecodeList : List Char → Except String (List Nat)
  | [] => .ok []
  | [_] => .error "odd length hex string"
  | c1 :: c2 :: rest =>
    match hexDigitVal c1, hexDigitVal c2 with
    | some hi, some lo =>
      match hexDecodeList rest with
      | .ok bs => .ok ((hi * 16 + lo) :: bs)
      | .error e => .error e
    | _, _ => .error "invalid hex byte"

/-- Go `hex.DecodeString` on a string. -/
def hexDecodeString (s : String) : Except String (List Nat) :=
  hexDecodeList s.data

/-- Decimal digit accumulation as in Go `strconv.ParseUint`: `acc`
carries the value of the digits already consumed; `none` when a
character is not a decimal digit. -/
def decDigitsAcc (acc : Nat) : List Char → Option Nat
  | [] => some acc
  | c :: rest =>
    if '0' ≤ c ∧ c ≤ '9' then decDigitsAcc (acc * 10 + (c.toNat - '0'.toNat)) rest
    else none

/-- Go `strconv.ParseInt(s, 10, 64)`: optional sign, at least one
digit, all characters decimal digits, and the value must fit in a
signed 64-bit integer; `none` models a non-nil error. -/
def goParseInt64 (s : String) : Option Int :=
  match s.data with
  | [] => none
  | cs =>
    let signAndDigits : Bool × List Char :=
      match cs with
      | '+' :: rest => (false, rest)
      | '-' :: rest => (true, rest)
      | rest => (false, rest)
    let neg := signAndDigits.1
    let ds := signAndDigits.2
    if ds.isEmpty then none
    else
      match decDigitsAcc 0 ds with
      | none => none
      | some n =>
        if neg then
          if n ≤ 2 ^ 63 then some (-(n : Int)) else none
        else
          if n < 2 ^ 63 then some (n : Int) else none

/-- Go `math.MaxInt64`, the unbounded token passed to `TempFile`. -/
def maxInt64 : Int := 2 ^ 63 - 1

/-- Go `strings.ToLower`, character-wise lowering (ASCII case
folding, which covers the hex identifiers this layer handles). -/
def goToLower (s : String) : String :=
  ⟨s.data.map Char.toLower⟩

/-- Go `strings.HasPrefix`. -/
def goStartsWith (s pre : String) : Bool :=
  pre.data.isPrefixOf s.data

/-- An atomic file writer (`fs.AtomicFileWriter`) is external; the
embedding tracks it by an identifier only. -/
abbrev AtomicWriter := Nat

/-- The value tuple returned by the index database `Lookup` call
(`timestamp, deletion, metahash, metabytes, path`); the Go call
returns these alongside its error, and the caller assigns them
whether or not the error is nil. -/
structure LookupResult where
  timestamp : Int
  deletion : Bool
  metahash : List Nat
  metabytes : List Nat
  path : String

/-- The argument tuple of one forwarded index-database `Commit` call,
returned by the embedding so theorems can inspect what was sent. -/
structure CommitCall where
  writer : Option AtomicWriter
  hash : String
  shard : Nat
  timestamp : Int
  deletion : Bool
  metahash : List Nat
  metabytes : List Nat

/-- The external index database (`internal.IndexDB`), §6 contract:
modelled as a record of functions. `lookup` returns its value tuple
together with an optional error (matching the Go multiple-assignment
semantics); `list` yields already-formatted record descriptors (the
`%v` rendering is external). -/
structure IndexDB where
  ringPartPower : Nat
  lookup : String → Nat → LookupResult × Option String
  list : Nat → Except String (List String)
  tempFile : String → Nat → Int → Int → Option AtomicWriter × Option String
  commit : Option AtomicWriter → String → Nat → Int → Bool → List Nat → List Nat → Option String

/-- The remaining external collaborators: JSON encode/decode
(`encoding/json` on `map[string]string`), `common.ParseDate` composed
with `UnixNano`, `internal.MetadataHash`, `ObjHash`, and the clock
(`time.Now` as nanoseconds plus its canonical-timestamp rendering). -/
structure Env where
  unmarshalStringMap : List Nat → Except String MetaMap
  marshal : MetaMap → Except String (List Nat)
  parseDate : String → Except String Int
  metadataHashFn : MetaMap → List Nat
  objHash : MetaMap → String → String → String
  nowNanos : Int
  nowCanonical : String

/-- The per-request object handle (`indexDBObject`). The `asyncWG`
field of the Go struct is stored but never used by any of the
operations modelled here and is omitted. -/
structure indexDBObject where
  fallocateReserve : Int := 0
  reclaimAge : Int := 0
  indexDB : IndexDB
  hash : String := ""
  loaded : Bool := false
  timestamp : Int := 0
  deletion : Bool := false
  metadata : MetaMap := []
  path : String := ""
  atomicFileWriter : Option AtomicWriter := none
  fakebytes : String := ""

/-- `(*indexDBObject) load`: no-op when already loaded; otherwise the
index-database lookup's values are assigned to the handle before the
error is examined, then the metadata map is reset and refilled from
the deserialized bytes; `loaded` is set only when everything
succeeded. Returns the new handle state and the optional error. -/
def indexDBObject.load (env : Env) (o : indexDBObject) : indexDBObject × Option String :=
  if o.loaded then (o, none)
  else
    let lr := o.indexDB.lookup o.hash 0
    let o1 := { o with timestamp := lr.1.timestamp, deletion := lr.1.deletion, path := lr.1.path }
    match lr.2 with
    | some e => (o1, some e)
    | none =>
      let o2 := { o1 with metadata := [] }
      match env.unmarshalStringMap lr.1.metabytes with
      | .error e => (o2, some e)
      | .ok m => ({ o2 with metadata := m, loaded := true }, none)

/-- `(*indexDBObject) ContentLength`: loads, then parses the
`Content-Length` metadata value; `-1` on load failure or parse
failure (a missing key reads as `""`, which fails to parse). -/
def indexDBObject.ContentLength (env : Env) (o : indexDBObject) : indexDBObject × Int :=
  match o.load env with
  | (o1, some _) => (o1, -1)
  | (o1, none) =>
    match goParseInt64 (metaGet o1.metadata "Content-Length") with
    | none => (o1, -1)
    | some n => (o1, n)

/-- `(*indexDBObject) SetData`: abandon any pending atomic file
writer, then request a fresh temp-file writer (hash, shard 0,
`math.MaxInt64`, expected size) and store whatever it returned as the
pending writer. Returns the new state, the list of writers abandoned
by this call, and the temp-file error. -/
def indexDBObject.SetData (o : indexDBObject) (size : Int) :
    indexDBObject × List AtomicWriter × Option String :=
  let abandoned : List AtomicWriter :=
    match o.atomicFileWriter with
    | some w => [w]
    | none => []
  let tf := o.indexDB.tempFile o.hash 0 maxInt64 size
  ({ o with atomicFileWriter := tf.1 }, abandoned, tf.2)

/-- `(*indexDBObject) commit`: when a writer is pending or this is a
deletion, `X-Timestamp` must be present and parseable (`timestamp`
stays 0 otherwise); metadata is serialized; the commit is forwarded
to the index database and only then is the pending-writer reference
cleared. Returns the new state, the forwarded call (if one was made)
and the error. -/
def indexDBObject.commit (env : Env) (o : indexDBObject) (metadata : MetaMap) (deletion : Bool) :
    indexDBObject × Option CommitCall × Option String :=
  let tsResult : Except String Int :=
    if o.atomicFileWriter.isSome || deletion then
      match assocFind? metadata "X-Timestamp" with
      | none => .error "no timestamp in metadata"
      | some timestampStr => env.parseDate timestampStr
    else .ok 0
  match tsResult with
  | .error e => (o, none, some e)
  | .ok timestamp =>
    match env.marshal metadata with
    | .error e => (o, none, some e)
    | .ok metabytes =>
      let call : CommitCall :=
        { writer := o.atomicFileWriter, hash := o.hash, shard := 0,
          timestamp := timestamp, deletion := deletion,
          metahash := env.metadataHashFn metadata, metabytes := metabytes }
      let err := o.indexDB.commit call.writer call.hash call.shard call.timestamp
        call.deletion call.metahash call.metabytes
      ({ o with atomicFileWriter := none }, some call, err)

/-- `(*indexDBObject) Commit`. -/
def indexDBObject.Commit (env : Env) (o : indexDBObject) (metadata : MetaMap) :
    indexDBObject × Option CommitCall × Option String :=
  o.commit env metadata false

/-- `(*indexDBObject) CommitMetadata`. -/
def indexDBObject.CommitMetadata (env : Env) (o : indexDBObject) (metadata : MetaMap) :
    indexDBObject × Option CommitCall × Option String :=
  o.commit env metadata false

/-- `(*indexDBObject) Delete`. -/
def indexDBObject.Delete (env : Env) (o : indexDBObject) (metadata : MetaMap) :
    indexDBObject × Option CommitCall × Option String :=
  o.commit env metadata true

/-- `(*indexDBObject) Close`: abandon and clear a pending writer if
any; always returns no error. Returns the new state, the writers
abandoned by this call, and the (always absent) error. -/
def indexDBObject.Close (o : indexDBObject) : indexDBObject × List AtomicWriter × Option String :=
  match o.atomicFileWriter with
  | some w => ({ o with atomicFileWriter := none }, [w], none)
  | none => (o, [], none)

/-- The partition derivation inlined in `indexDBEngine.New` (lines
132–140): require length 32, hex-decode, combine the first four bytes
big-endian, shift right by `32 - ringPartPower`. -/
def partitionOf (hsh : String) (ringPartPower : Nat) : Except String Nat :=
  if hsh.length ≠ 32 then .error "invalid hash; length was not 32"
  else
    match hexDecodeString hsh with
    | .error _ => .error "invalid hash; decoding error"
    | .ok hashBytes =>
      let upper := (hashBytes.getD 0 0) <<< 24 ||| (hashBytes.getD 1 0) <<< 16 |||
        (hashBytes.getD 2 0) <<< 8 ||| hashBytes.getD 3 0
      .ok (upper >>> (32 - ringPartPower))

/-- The device registry (`indexDBEngine`): the per-device
index-database map and the construction-time configuration used by
`New`. -/
structure indexDBEngine where
  hashPathPrefix : String := ""
  hashPathSuffix : String := ""
  fallocateReserve : Int := 0
  reclaimAge : Int := 0
  indexDBs : List (String × IndexDB)

/-- Outcome of `indexDBEngine.New`: a Go `panic`, an ordinary error
return, or an object handle. -/
inductive NewResult where
  | panicked : String → NewResult
  | failed : String → NewResult
  | ok : indexDBObject → NewResult

/-- `(*indexDBEngine) New`: panic when the device is not in the map;
on the `fakelist` debug prefix, build a pre-loaded synthetic handle
whose payload lists the partition's records under a leading
partition-number line, with exactly a generated `X-Timestamp` and a
`Content-Length` of the payload's byte length as metadata; otherwise
return a fresh unloaded handle for the hash. -/
def indexDBEngine.New (env : Env) (idbe : indexDBEngine) (vars : MetaMap) : NewResult :=
  match assocFind? idbe.indexDBs (metaGet vars "device") with
  | none => .panicked (metaGet vars "device")
  | some indexDB =>
    if goStartsWith (metaGet vars "obj") "fakelist" then
      let hsh := goToLower (env.objHash vars idbe.hashPathPrefix idbe.hashPathSuffix)
      match partitionOf hsh indexDB.ringPartPower with
      | .error e => .failed e
      | .ok ringPart =>
        match indexDB.list ringPart with
        | .error e => .failed e
        | .ok lst =>
          let fakebytes := toString ringPart ++ "\n" ++ String.join (lst.map (fun itm => itm ++ "\n"))
          .ok { fallocateReserve := idbe.fallocateReserve
                reclaimAge := idbe.reclaimAge
                indexDB := indexDB
                hash := hsh
                loaded := true
                timestamp := env.nowNanos
                deletion := false
                metadata := [("X-Timestamp", env.nowCanonical),
                             ("Content-Length", toString fakebytes.utf8ByteSize)]
                path := "fakelist"
                fakebytes := fakebytes }
    else
      .ok { fallocateReserve := idbe.fallocateReserve
            reclaimAge := idbe.reclaimAge
            indexDB := indexDB
            hash := env.objHash vars idbe.hashPathPrefix idbe.hashPathSuffix }

/-! ## Concrete fixtures used by witness theorems -/

/-- An index database whose lookup succeeds and returns the given
metadata bytes, used to drive concrete executions. -/
def dbWith (mb : List Nat) : IndexDB :=
  { ringPartPower := 10
    lookup := fun _ _ =>
      ({ timestamp := 5, deletion := false, metahash := [], metabytes := mb, path := "p" }, none)
    list := fun _ => .ok []
    tempFile := fun _ _ _ _ => (some 42, none)
    commit := fun _ _ _ _ _ _ _ => none }

/-- An index database whose lookup fails (but still returns values,
as the Go call does). -/
def dbBadLookup : IndexDB :=
  { dbWith [] with
    lookup := fun _ _ =>
      ({ timestamp := 3, deletion := true, metahash := [], metabytes := [], path := "q" }, some "lookup failed") }

/-- A concrete environment: bytes `[1]` deserialize to a metadata map
with a parseable `Content-Length`, `[3]` to an empty map, `[4]` to an
unparseable `Content-Length`; everything else fails to deserialize. -/
def envT : Env :=
  { unmarshalStringMap := fun bs =>
      if bs = [1] then .ok [("Content-Length", "7")]
      else if bs = [3] then .ok []
      else if bs = [4] then .ok [("Content-Length", "x")]
      else .error "unmarshal failed"
    marshal := fun _ => .ok [9]
    parseDate := fun s => if s = "ts" then .ok 123 else .error "parse failed"
    metadataHashFn := fun _ => []
    objHash := fun _ _ _ => "D41D8CD98F00B204E9800998ECF8427E"
    nowNanos := 77
    nowCanonical := "now" }

/-- `envT` with a date parser that always fails, used to show the
parser is irrelevant to writer-less commits. -/
def envT2 : Env := { envT with parseDate := fun _ => .error "always" }

/-- A handle with a pending atomic writer. -/
def oW : indexDBObject := { indexDB := dbWith [1], hash := "h", atomicFileWriter := some 7 }

/-- A handle with no pending atomic writer. -/
def oN : indexDBObject := { indexDB := dbWith [1], hash := "h" }

/-! ## Theorems -/

/-- C6: `Commit` and `CommitMetadata` both equal the internal
`commit` with the deletion flag false, and `Delete` equals `commit`
with the deletion flag true. -/
theorem commit_aliases (env : Env) (o : indexDBObject) (m : MetaMap) :
    o.Commit env m = o.commit env m false
  ∧ o.CommitMetadata env m = o.commit env m false
  ∧ o.Delete env m = o.commit env m true :=
  ⟨rfl, rfl, rfl⟩

/-- C5: when the vars' device is not a key of the engine's
index-database map, `New` panics with the device name; it neither
returns an error value nor a handle. -/
theorem New_unknown_device_panics (env : Env) (idbe : indexDBEngine) (vars : MetaMap)
    (h : assocFind? idbe.indexDBs (metaGet vars "device") = none) :
    idbe.New env vars = .panicked (metaGet vars "device") := by
  unfold indexDBEngine.New
  rw [h]

/-- Witness for C5 at a concrete engine with no devices. -/
theorem New_unknown_device_panics_witness :
    indexDBEngine.New envT { indexDBs := [] } [("device", "sdz")] = .panicked "sdz" :=
  New_unknown_device_panics envT { indexDBs := [] } [("device", "sdz")] rfl

/-- C8: `SetData` abandons exactly the previously pending writer (if
any) and stores the fresh temp-file writer as the sole pending one;
`Close` abandons and clears a pending writer, is idempotent, and
always returns no error. -/
theorem writer_lifecycle (o : indexDBObject) (size : Int) :
    ((o.SetData size).1.atomicFileWriter = (o.indexDB.tempFile o.hash 0 maxInt64 size).1)
  ∧ (∀ w, o.atomicFileWriter = some w → (o.SetData size).2.1 = [w])
  ∧ (o.atomicFileWriter = none → (o.SetData size).2.1 = [])
  ∧ (∀ w, o.atomicFileWriter = some w →
      o.Close = ({ o with atomicFileWriter := none }, [w], none))
  ∧ (o.atomicFileWriter = none → o.Close = (o, [], none))
  ∧ ((o.Close).1.Close = ((o.Close).1, [], none))
  ∧ ((o.Close).2.2 = none) := by
  unfold indexDBObject.SetData indexDBObject.Close
  cases h : o.atomicFileWriter <;> simp_all

/-- Witness for C8: the lifecycle at a handle with a pending writer
and at one without. -/
theorem writer_lifecycle_witness :
    ((oW.SetData 9).2.1 = [7])
  ∧ (oW.Close = ({ oW with atomicFileWriter := none }, [7], none))
  ∧ ((oN.SetData 9).2.1 = [])
  ∧ (oN.Close = (oN, [], none)) :=
  ⟨(writer_lifecycle oW 9).2.1 7 rfl,
   (writer_lifecycle oW 9).2.2.2.1 7 rfl,
   (writer_lifecycle oN 9).2.2.1 rfl,
   (writer_lifecycle oN 9).2.2.2.2.1 rfl⟩

/-- C1 counterexample: with a pending writer and a metadata map
lacking `X-Timestamp`, `Commit` returns the validation error but the
pending-writer reference is NOT cleared — the early validation return
happens before the line that clears the writer. -/
theorem commit_missing_ts_keeps_writer_cex :
    (indexDBObject.Commit envT oW []).2.2 = some "no timestamp in metadata"
  ∧ (indexDBObject.Commit envT oW []).1.atomicFileWriter = some 7 :=
  ⟨rfl, rfl⟩

/-- C1 (amended): without `X-Timestamp`, `Commit`/`CommitMetadata`
with a pending writer, and `Delete` always, fail with the validation
error and leave the handle — including its pending-writer reference —
entirely unchanged; the writer is not consumed by this early failure. -/
theorem commit_missing_ts_validation (env : Env) (o : indexDBObject) (m : MetaMap)
    (hts : assocFind? m "X-Timestamp" = none) :
    (o.atomicFileWriter.isSome = true →
        o.Commit env m = (o, none, some "no timestamp in metadata")
      ∧ o.CommitMetadata env m = (o, none, some "no timestamp in metadata"))
  ∧ o.Delete env m = (o, none, some "no timestamp in metadata") := by
  unfold indexDBObject.Commit indexDBObject.CommitMetadata indexDBObject.Delete
    indexDBObject.commit
  rw [hts]
  refine ⟨fun hw => ?_, ?_⟩
  · simp [hw]
  · simp

/-- Witness for C1's amended theorem at a concrete handle with a
pending writer and an empty metadata map. -/
theorem commit_missing_ts_validation_witness :
    (indexDBObject.Commit envT oW [] = (oW, none, some "no timestamp in metadata"))
  ∧ (indexDBObject.Delete envT oW [] = (oW, none, some "no timestamp in metadata")) :=
  ⟨((commit_missing_ts_validation envT oW [] rfl).1 rfl).1,
   (commit_missing_ts_validation envT oW [] rfl).2⟩

/-- C9: with no pending writer, `Commit` and `CommitMetadata` never
consult the date parser (any two environments agreeing on the
serializer and metadata-hash function give identical results), and
any forwarded index-database call carries timestamp 0 and no writer —
even when the metadata map holds a valid `X-Timestamp`. -/
theorem commit_no_writer_timestamp_zero (env env2 : Env) (o : indexDBObject) (m : MetaMap)
    (hw : o.atomicFileWriter = none)
    (hm : env.marshal = env2.marshal)
    (hh : env.metadataHashFn = env2.metadataHashFn) :
    (o.Commit env m = o.Commit env2 m ∧ o.CommitMetadata env m = o.CommitMetadata env2 m)
  ∧ (∀ c, (o.Commit env m).2.1 = some c → c.timestamp = 0 ∧ c.writer = none) := by
  unfold indexDBObject.Commit indexDBObject.CommitMetadata indexDBObject.commit
  rw [hw, hm, hh]
  simp only [Option.isSome_none, Bool.false_or]
  constructor
  · exact ⟨rfl, rfl⟩
  · intro c
    cases henc : env2.marshal m <;> simp
    intro hc
    rw [← hc]
    exact ⟨rfl, rfl⟩

/-- Witness for C9 at a handle with no pending writer and a metadata
map that does contain a valid `X-Timestamp`, against an environment
whose date parser always fails. -/
theorem commit_no_writer_timestamp_zero_witness :
    (indexDBObject.Commit envT oN [("X-Timestamp", "ts")]
      = indexDBObject.Commit envT2 oN [("X-Timestamp", "ts")])
  ∧ (CommitCall.timestamp ⟨none, "h", 0, 0, false, [], [9]⟩ = 0
      ∧ CommitCall.writer ⟨none, "h", 0, 0, false, [], [9]⟩ = none) :=
  ⟨(commit_no_writer_timestamp_zero envT envT2 oN [("X-Timestamp", "ts")] rfl rfl rfl).1.1,
   (commit_no_writer_timestamp_zero envT envT2 oN [("X-Timestamp", "ts")] rfl rfl rfl).2
     ⟨none, "h", 0, 0, false, [], [9]⟩ rfl⟩

/-- C3: `load` is a no-op on a loaded handle; on an unloaded handle
it succeeds exactly when the index-database lookup succeeds and the
metadata bytes deserialize, and on any failure the handle stays
unloaded. -/
theorem load_spec (env : Env) (o : indexDBObject) :
    (o.loaded = true → o.load env = (o, none))
  ∧ (o.loaded = false →
      (((o.load env).2 = none) ↔
        ((o.indexDB.lookup o.hash 0).2 = none ∧
          ∃ m, env.unmarshalStringMap (o.indexDB.lookup o.hash 0).1.metabytes = Except.ok m))
    ∧ ((o.load env).2 ≠ none → (o.load env).1.loaded = false)) := by
  unfold indexDBObject.load
  refine ⟨fun hl => by simp [hl], fun hl => ?_⟩
  rw [if_neg (by simp [hl])]
  cases herr : (o.indexDB.lookup o.hash 0).2 with
  | some e => simp [herr, hl]
  | none =>
    cases hum : env.unmarshalStringMap (o.indexDB.lookup o.hash 0).1.metabytes <;>
      simp [herr, hum, hl]

/-- A loaded handle. -/
def oL : indexDBObject := { indexDB := dbWith [1], hash := "h", loaded := true }

/-- A handle whose index-database lookup fails. -/
def oE : indexDBObject := { indexDB := dbBadLookup, hash := "h" }

/-- A handle whose metadata bytes fail to deserialize. -/
def oJ : indexDBObject := { indexDB := dbWith [2], hash := "h" }

/-- Witness for C3: the no-op case, a succeeding load, and a failing
load that leaves the handle unloaded. -/
theorem load_spec_witness :
    (oL.load envT = (oL, none))
  ∧ ((oN.load envT).2 = none)
  ∧ ((oE.load envT).1.loaded = false) :=
  ⟨(load_spec envT oL).1 rfl,
   (((load_spec envT oN).2 rfl).1).mpr ⟨rfl, [("Content-Length", "7")], rfl⟩,
   ((load_spec envT oE).2 rfl).2 (by rw [show (oE.load envT).2 = some "lookup failed" from rfl]; simp)⟩

/-- C10: a failed `load` is not atomic on the handle: a failed lookup
still overwrites the timestamp, deletion flag and path with the
lookup's returned values; a failed deserialization additionally
leaves the freshly emptied metadata map; only `loaded` is untouched. -/
theorem load_failure_frame (env : Env) (o : indexDBObject)
    (hl : o.loaded = false) :
    (∀ e, (o.indexDB.lookup o.hash 0).2 = some e →
      o.load env = ({ o with
        timestamp := (o.indexDB.lookup o.hash 0).1.timestamp,
        deletion := (o.indexDB.lookup o.hash 0).1.deletion,
        path := (o.indexDB.lookup o.hash 0).1.path }, some e))
  ∧ (∀ e, (o.indexDB.lookup o.hash 0).2 = none →
      env.unmarshalStringMap (o.indexDB.lookup o.hash 0).1.metabytes = Except.error e →
      o.load env = ({ o with
        timestamp := (o.indexDB.lookup o.hash 0).1.timestamp,
        deletion := (o.indexDB.lookup o.hash 0).1.deletion,
        path := (o.indexDB.lookup o.hash 0).1.path,
        metadata := [] }, some e)) := by
  unfold indexDBObject.load
  rw [if_neg (by simp [hl])]
  cases hlr : o.indexDB.lookup o.hash 0 with
  | mk v er =>
    constructor
    · intro e herr
      simp only at herr
      subst herr
      simp
    · intro e herr hum
      simp only at herr hum
      subst herr
      simp [hum]

/-- Witness for C10: the two failure shapes at concrete handles. -/
theorem load_failure_frame_witness :
    (oE.load envT = ({ oE with timestamp := 3, deletion := true, path := "q" }, some "lookup failed"))
  ∧ (oJ.load envT = ({ oJ with timestamp := 5, deletion := false, path := "p", metadata := [] }, some "unmarshal failed")) :=
  ⟨(load_failure_frame envT oE rfl).1 "lookup failed" rfl,
   (load_failure_frame envT oJ rfl).2 "unmarshal failed" rfl rfl⟩

/-- C4: `ContentLength` has no error channel: it yields `-1` when
`load` fails, when the `Content-Length` key is missing, and when its
value does not parse as a base-10 signed 64-bit integer; otherwise it
yields the parsed value. -/
theorem ContentLength_spec (env : Env) (o : indexDBObject) :
    (∀ e, (o.load env).2 = some e → (o.ContentLength env).2 = -1)
  ∧ ((o.load env).2 = none →
      (assocFind? (o.load env).1.metadata "Content-Length" = none →
        (o.ContentLength env).2 = -1)
    ∧ (goParseInt64 (metaGet (o.load env).1.metadata "Content-Length") = none →
        (o.ContentLength env).2 = -1)
    ∧ (∀ n, goParseInt64 (metaGet (o.load env).1.metadata "Content-Length") = some n →
        (o.ContentLength env).2 = n)) := by
  unfold indexDBObject.ContentLength
  cases hload : o.load env with
  | mk o1 r =>
    cases r with
    | some e => simp
    | none =>
      refine ⟨by simp, fun _ => ⟨fun hmiss => ?_, fun hparse => by simp [hparse], fun n hn => by simp [hn]⟩⟩
      simp only at hmiss
      have hget : metaGet o1.metadata "Content-Length" = "" := by
        unfold metaGet
        rw [hmiss]
        rfl
      simp [hget]
      rfl

/-- A handle whose metadata deserializes to an empty map (no
`Content-Length` key). -/
def oM : indexDBObject := { indexDB := dbWith [3], hash := "h" }

/-- A handle whose `Content-Length` metadata value is unparseable. -/
def oU : indexDBObject := { indexDB := dbWith [4], hash := "h" }

/-- Witness for C4: load failure, missing key, unparseable value and
parseable value, at concrete handles. -/
theorem ContentLength_spec_witness :
    ((oE.ContentLength envT).2 = -1)
  ∧ ((oM.ContentLength envT).2 = -1)
  ∧ ((oU.ContentLength envT).2 = -1)
  ∧ ((oN.ContentLength envT).2 = 7) :=
  ⟨(ContentLength_spec envT oE).1 "lookup failed" rfl,
   ((ContentLength_spec envT oM).2 rfl).1 rfl,
   ((ContentLength_spec envT oU).2 rfl).2.1 rfl,
   ((ContentLength_spec envT oN).2 rfl).2.2 7 rfl⟩

/-! ## Addressing: partition derivation (C2) -/

/-- Companion to `hexDecodeList`: the bytes a successful decode
produces. -/
def hexPairBytes : List Char → List Nat
  | c1 :: c2 :: rest =>
    ((hexDigitVal c1).getD 0 * 16 + (hexDigitVal c2).getD 0) :: hexPairBytes rest
  | _ => []

/-- Big-endian integer value of a byte list; on `bs.take 4` this is
the claim's "first 4 bytes of the hex decoding interpreted as a
big-endian 32-bit integer". -/
def beUint32 (bs : List Nat) : Nat :=
  bs.foldl (fun a b => a * 256 + b) 0

/-- A lowercase hexadecimal digit character. -/
def isLowerHexChar (c : Char) : Bool :=
  (decide ('0' ≤ c) && decide (c ≤ '9')) || (decide ('a' ≤ c) && decide (c ≤ 'f'))

/-- A hexadecimal digit character of either case. -/
def isHexChar (c : Char) : Bool :=
  (hexDigitVal c).isSome

theorem charLeToNat (a c : Char) (h : a ≤ c) : a.toNat ≤ c.toNat := by
  rw [Char.le_def] at h
  exact h

theorem hexDigitVal_lt (c : Char) (v : Nat) (h : hexDigitVal c = some v) : v < 16 := by
  have e0 : '0'.toNat = 48 := rfl
  have e9 : '9'.toNat = 57 := rfl
  have ea : 'a'.toNat = 97 := rfl
  have ef : 'f'.toNat = 102 := rfl
  have eA : 'A'.toNat = 65 := rfl
  have eF : 'F'.toNat = 70 := rfl
  unfold hexDigitVal at h
  split_ifs at h with h1 h2 h3 <;> injection h with h <;>
    [obtain ⟨ha, hb⟩ := h1; obtain ⟨ha, hb⟩ := h2; obtain ⟨ha, hb⟩ := h3] <;>
    have ha2 := charLeToNat _ _ ha <;> have hb2 := charLeToNat _ _ hb <;> omega

theorem hexDigitValD_lt (c : Char) : (hexDigitVal c).getD 0 < 16 := by
  cases h : hexDigitVal c with
  | none => simp
  | some v => simpa using hexDigitVal_lt c v h

theorem isSome_of_isLowerHexChar (c : Char) (h : isLowerHexChar c = true) :
    (hexDigitVal c).isSome := by
  unfold isLowerHexChar at h
  simp at h
  unfold hexDigitVal
  split_ifs with h1 h2 h3 <;> simp_all

theorem hexDecodeList_ok : ∀ l : List Char, (∀ c ∈ l, (hexDigitVal c).isSome) →
    l.length % 2 = 0 → hexDecodeList l = .ok (hexPairBytes l)
  | [], _, _ => rfl
  | [c], _, heven => by simp at heven
  | c1 :: c2 :: rest, hall, heven => by
    have h1 := hall c1 (by simp)
    have h2 := hall c2 (by simp)
    obtain ⟨v1, hv1⟩ := Option.isSome_iff_exists.mp h1
    obtain ⟨v2, hv2⟩ := Option.isSome_iff_exists.mp h2
    have hrest := hexDecodeList_ok rest (fun c hc => hall c (by simp [hc]))
      (by simp at heven ⊢; omega)
    unfold hexDecodeList hexPairBytes
    rw [hv1, hv2, hrest]
    rfl

theorem hexDecodeList_error : ∀ l : List Char, (∃ c ∈ l, hexDigitVal c = none) →
    ∃ e, hexDecodeList l = .error e
  | [], hbad => by simp at hbad
  | [c], _ => ⟨"odd length hex string", rfl⟩
  | c1 :: c2 :: rest, hbad => by
    unfold hexDecodeList
    cases hv1 : hexDigitVal c1 with
    | none => exact ⟨"invalid hex byte", rfl⟩
    | some v1 =>
      cases hv2 : hexDigitVal c2 with
      | none => exact ⟨"invalid hex byte", rfl⟩
      | some v2 =>
        have hrest : ∃ c ∈ rest, hexDigitVal c = none := by
          obtain ⟨c, hc, hcv⟩ := hbad
          simp at hc
          rcases hc with rfl | rfl | hc
          · rw [hcv] at hv1; cases hv1
          · rw [hcv] at hv2; cases hv2
          · exact ⟨c, hc, hcv⟩
        obtain ⟨e, he⟩ := hexDecodeList_error rest hrest
        rw [he]
        exact ⟨e, rfl⟩

theorem hexPairBytes_length : ∀ l : List Char, l.length % 2 = 0 →
    (hexPairBytes l).length = l.length / 2
  | [], _ => rfl
  | [c], h => by simp at h
  | c1 :: c2 :: rest, h => by
    unfold hexPairBytes
    simp at h ⊢
    rw [hexPairBytes_length rest (by omega)]
    omega

theorem hexPairBytes_lt : ∀ l : List Char, ∀ b ∈ hexPairBytes l, b < 256
  | [], b, hb => by simp [hexPairBytes] at hb
  | [c], b, hb => by simp [hexPairBytes] at hb
  | c1 :: c2 :: rest, b, hb => by
    unfold hexPairBytes at hb
    simp at hb
    rcases hb with rfl | hb
    · have := hexDigitValD_lt c1
      have := hexDigitValD_lt c2
      omega
    · exact hexPairBytes_lt rest b hb

theorem upper_eq_add (b0 b1 b2 b3 : Nat) (h1 : b1 < 256)
    (h2 : b2 < 256) (h3 : b3 < 256) :
    b0 <<< 24 ||| b1 <<< 16 ||| b2 <<< 8 ||| b3 = ((b0 * 256 + b1) * 256 + b2) * 256 + b3 := by
  have e1 : b2 <<< 8 ||| b3 = b2 <<< 8 + b3 := by
    rw [Nat.shiftLeft_eq, Nat.mul_comm]
    exact (Nat.mul_add_lt_is_or h3 b2).symm
  have e2 : b1 <<< 16 ||| (b2 <<< 8 + b3) = b1 <<< 16 + (b2 <<< 8 + b3) := by
    rw [Nat.shiftLeft_eq, Nat.shiftLeft_eq, Nat.mul_comm b1]
    exact (Nat.mul_add_lt_is_or (by norm_num; omega) b1).symm
  have e3 : b0 <<< 24 ||| (b1 <<< 16 + (b2 <<< 8 + b3)) = b0 <<< 24 + (b1 <<< 16 + (b2 <<< 8 + b3)) := by
    rw [Nat.shiftLeft_eq, Nat.shiftLeft_eq, Nat.shiftLeft_eq, Nat.mul_comm b0]
    exact (Nat.mul_add_lt_is_or (by norm_num; omega) b0).symm
  rw [Nat.lor_assoc, Nat.lor_assoc, e1, e2, e3]
  rw [Nat.shiftLeft_eq, Nat.shiftLeft_eq, Nat.shiftLeft_eq]
  ring

theorem upper_eq_beUint32 (bs : List Nat) (hlen : 4 ≤ bs.length)
    (hlt : ∀ b ∈ bs, b < 256) :
    bs.getD 0 0 <<< 24 ||| bs.getD 1 0 <<< 16 ||| bs.getD 2 0 <<< 8 ||| bs.getD 3 0
      = beUint32 (bs.take 4) := by
  rcases bs with _ | ⟨b0, _ | ⟨b1, _ | ⟨b2, _ | ⟨b3, rest⟩⟩⟩⟩ <;> simp at hlen
  have h1 : b1 < 256 := hlt b1 (by simp)
  have h2 : b2 < 256 := hlt b2 (by simp)
  have h3 : b3 < 256 := hlt b3 (by simp)
  simp [beUint32, upper_eq_add b0 b1 b2 b3 h1 h2 h3]

/-- C2: for a 32-character lowercase-hex hash string, the derived
partition is the big-endian 32-bit value of the first four decoded
bytes shifted right by `32 - ringPartPower` (`partitionOf` is a pure
function, so the value is identical on every call with the same
arguments); for a hash of the wrong length or containing a
non-hexadecimal character, derivation returns an explicit error. -/
theorem partitionOf_spec (h : String) (p : Nat) :
    (h.length = 32 → (∀ c ∈ h.data, isLowerHexChar c = true) →
      ∃ bs, hexDecodeString h = .ok bs ∧
        partitionOf h p = .ok (beUint32 (bs.take 4) >>> (32 - p)))
  ∧ ((h.length ≠ 32 ∨ ∃ c ∈ h.data, isHexChar c = false) →
      ∃ e, partitionOf h p = .error e) := by
  constructor
  · intro hlen hlower
    have hall : ∀ c ∈ h.data, (hexDigitVal c).isSome :=
      fun c hc => isSome_of_isLowerHexChar c (hlower c hc)
    have hdlen : h.data.length = 32 := hlen
    have heven : h.data.length % 2 = 0 := by omega
    have hdec : hexDecodeList h.data = .ok (hexPairBytes h.data) :=
      hexDecodeList_ok _ hall heven
    refine ⟨hexPairBytes h.data, hdec, ?_⟩
    unfold partitionOf
    rw [if_neg (by simp [hlen])]
    unfold hexDecodeString
    rw [hdec]
    have hblen : 4 ≤ (hexPairBytes h.data).length := by
      rw [hexPairBytes_length _ heven, hdlen]
      omega
    dsimp only
    rw [upper_eq_beUint32 _ hblen (hexPairBytes_lt h.data)]
  · intro hbad
    unfold partitionOf
    rcases hbad with hlen | ⟨c, hc, hcv⟩
    · rw [if_pos hlen]
      exact ⟨_, rfl⟩
    · by_cases hlen : h.length = 32
      · rw [if_neg (by simp [hlen])]
        unfold hexDecodeString
        have hnone : hexDigitVal c = none := by
          unfold isHexChar at hcv
          cases hv : hexDigitVal c with
          | none => rfl
          | some v => rw [hv] at hcv; cases hcv
        obtain ⟨e, he⟩ := hexDecodeList_error h.data ⟨c, hc, hnone⟩
        rw [he]
        exact ⟨_, rfl⟩
      · rw [if_pos hlen]
        exact ⟨_, rfl⟩

/-- Witness for C2: the spec's end-to-end identity with
`ringPartPower = 10`, plus a short hash and a 32-character
non-hexadecimal hash failing. -/
theorem partitionOf_spec_witness :
    (∃ bs, hexDecodeString "d41d8cd98f00b204e9800998ecf8427e" = .ok bs ∧
      partitionOf "d41d8cd98f00b204e9800998ecf8427e" 10 = .ok (beUint32 (bs.take 4) >>> 22))
  ∧ (∃ e, partitionOf "zz" 10 = .error e)
  ∧ (∃ e, partitionOf "zbcdzbcdzbcdzbcdzbcdzbcdzbcdzbcd" 10 = .error e) :=
  ⟨(partitionOf_spec "d41d8cd98f00b204e9800998ecf8427e" 10).1 rfl (by decide),
   (partitionOf_spec "zz" 10).2 (Or.inl (by decide)),
   (partitionOf_spec "zbcdzbcdzbcdzbcdzbcdzbcdzbcdzbcd" 10).2
     (Or.inr ⟨'z', by decide, by decide⟩)⟩

/-- C7: for a debug-prefixed object identifier on a known device,
`New` returns a pre-loaded synthetic handle whose payload is the
decimal partition number line followed by one line per listed record,
whose metadata is exactly a generated `X-Timestamp` and a
`Content-Length` equal to the payload's byte length; with zero
records the payload is exactly the partition number and a newline. -/
theorem New_fakelist_spec (env : Env) (idbe : indexDBEngine) (vars : MetaMap)
    (db : IndexDB) (ringPart : Nat) (lst : List String)
    (hdev : assocFind? idbe.indexDBs (metaGet vars "device") = some db)
    (hpref : goStartsWith (metaGet vars "obj") "fakelist" = true)
    (hpart : partitionOf (goToLower (env.objHash vars idbe.hashPathPrefix idbe.hashPathSuffix))
      db.ringPartPower = .ok ringPart)
    (hlst : db.list ringPart = .ok lst) :
    ∃ o, idbe.New env vars = .ok o
      ∧ o.loaded = true
      ∧ o.fakebytes = toString ringPart ++ "\n" ++ String.join (lst.map (fun itm => itm ++ "\n"))
      ∧ o.metadata = [("X-Timestamp", env.nowCanonical),
          ("Content-Length", toString o.fakebytes.utf8ByteSize)]
      ∧ (lst = [] → o.fakebytes = toString ringPart ++ "\n") := by
  unfold indexDBEngine.New
  rw [hdev]
  dsimp only
  rw [if_pos hpref, hpart]
  dsimp only
  rw [hlst]
  dsimp only
  refine ⟨_, rfl, rfl, rfl, rfl, ?_⟩
  intro hnil
  subst hnil
  simp [String.join]

/-- The device registry used by the synthetic-listing witness. -/
def idbe7 : indexDBEngine := { indexDBs := [("sda", dbWith [1])] }

/-- The request vars used by the synthetic-listing witness: a known
device and a debug-prefixed object identifier. -/
def vars7 : MetaMap := [("device", "sda"), ("obj", "fakelist-probe")]

/-- Witness for C7 at a device whose partition (848 for the hash the
environment produces, at ring-part-power 10) holds zero records: the
payload is exactly the partition number and a newline. -/
theorem New_fakelist_spec_witness :
    ∃ o, indexDBEngine.New envT idbe7 vars7 = .ok o
      ∧ o.loaded = true
      ∧ o.fakebytes = toString 848 ++ "\n" ++ String.join (([] : List String).map (fun itm => itm ++ "\n"))
      ∧ o.metadata = [("X-Timestamp", envT.nowCanonical),
          ("Content-Length", toString o.fakebytes.utf8ByteSize)]
      ∧ (([] : List String) = [] → o.fakebytes = toString 848 ++ "\n") :=
  New_fakelist_spec envT idbe7 vars7 (dbWith [1]) 848 [] rfl rfl rfl rfl
